import Mathlib

/-!
Shallow embedding of the token-bucket rate limiter (src/index.ts).

Numbers are modelled as exact rationals (the spec fixes exact real-valued
arithmetic for the wait-time computation).  The JavaScript value
`-Infinity` used to initialize `last_consume` is modelled as `none` in an
`Option Rat`; a `some t` is a finite timestamp.  `NaN` inputs to the public
operations are modelled by a dedicated constructor of `JSNum`.

Every public operation receives the current time `now : Rat` explicitly
(the source reads `Date.now()`; within one call all reads of the clock are
taken at the same instant).  State is passed explicitly: an operation
returns its result together with the updated limiter.  A thrown exception
is an `Except.error` paired with the unchanged limiter, matching the fact
that in the source every `throw` happens before any mutation.
-/

/-- A JavaScript number argument: either NaN or a finite (rational) value. -/
inductive JSNum where
  | nan : JSNum
  | num : Rat → JSNum
deriving Repr, DecidableEq

/-- Per-key bucket state; `last_consume = none` models `-Infinity` (never consumed). -/
structure BucketState where
  tokens : Rat
  last_refill : Rat
  last_consume : Option Rat
deriving Repr, DecidableEq

/-- The limiter: configuration plus the key-to-bucket map, modelled as an
association list in insertion order (JavaScript `Map` semantics). -/
structure TokenBucket where
  capacity : Rat
  interval : Rat
  refill : Rat
  initial : Rat
  cooldown : Rat
  buckets : List (String × BucketState)
deriving Repr, DecidableEq

/-- Lookup, as in `Map.get`: first (and, under the unique-key invariant, only) binding of a key. -/
def mapGet (m : List (String × BucketState)) (key : String) : Option BucketState :=
  match m with
  | [] => none
  | (k, b) :: rest => if k = key then some b else mapGet rest key

/-- Insert-or-update, as in `Map.set`: update in place if the key exists, else append. -/
def mapSet (m : List (String × BucketState)) (key : String) (v : BucketState) :
    List (String × BucketState) :=
  match m with
  | [] => [(key, v)]
  | (k, b) :: rest => if k = key then (key, v) :: rest else (k, b) :: mapSet rest key v

/-- Removal, as in `Map.delete`: remove the binding of a key. -/
def mapDelete (m : List (String × BucketState)) (key : String) :
    List (String × BucketState) :=
  match m with
  | [] => []
  | (k, b) :: rest => if k = key then rest else (k, b) :: mapDelete rest key

def err_nan : String := "amount must be a number"

def err_nonneg : String := "amount must be >= 0"

def err_pos : String := "amount must be > 0"

def err_cap : String := "amount must be <= capacity"

namespace TokenBucket

/-- Constructor, `new TokenBucket(options)`, with the defaults of the source constructor. -/
def make (capacity interval : Rat) (refill : Option Rat) (initial : Option Rat)
    (cooldown : Option Rat) : TokenBucket :=
  { capacity := capacity
    interval := interval
    refill := refill.getD 1
    initial := initial.getD capacity
    cooldown := cooldown.getD 0
    buckets := [] }

/-- Lookup step `get_bucket`: look the key up, creating a fresh bucket
(`tokens = initial`, `last_refill = now`, `last_consume = -Infinity`) if absent.
Returns the bucket together with the (possibly extended) map. -/
def get_bucket (tb : TokenBucket) (key : String) (now : Rat) :
    BucketState × List (String × BucketState) :=
  match mapGet tb.buckets key with
  | some b => (b, tb.buckets)
  | none =>
    let b : BucketState := { tokens := tb.initial, last_refill := now, last_consume := none }
    (b, mapSet tb.buckets key b)

/-- Refill step `refill_bucket`: add `elapsed / interval * refill` tokens, clamped at
`capacity`, and set `last_refill = now` unconditionally. -/
def refill_bucket (tb : TokenBucket) (b : BucketState) (now : Rat) : BucketState :=
  let elapsed := now - b.last_refill
  let refill_amount := elapsed / tb.interval * tb.refill
  { b with tokens := min tb.capacity (b.tokens + refill_amount), last_refill := now }

/-- Token wait, `calc_token_wait_time`: 0 when enough tokens, else `needed / refill * interval`. -/
def calc_token_wait_time (tb : TokenBucket) (tokens amount : Rat) : Rat :=
  if tokens ≥ amount then 0
  else
    let needed := amount - tokens
    needed / tb.refill * tb.interval

/-- Cooldown wait, `calc_cooldown_wait_time`: 0 when cooldown is disabled or has elapsed;
with `last_consume = -Infinity` (`none`) the elapsed time is infinite, so the
wait is 0 for every finite cooldown. -/
def calc_cooldown_wait_time (tb : TokenBucket) (b : BucketState) (now : Rat) : Rat :=
  if tb.cooldown = 0 then 0
  else
    match b.last_consume with
    | none => 0
    | some t =>
      let elapsed := now - t
      if elapsed ≥ tb.cooldown then 0 else tb.cooldown - elapsed

/-- Public operation `check(key, amount)`: validate, refill, and report the combined wait. -/
def check (tb : TokenBucket) (key : String) (amount : JSNum) (now : Rat) :
    Except String Rat × TokenBucket :=
  match amount with
  | .nan => (.error err_nan, tb)
  | .num a =>
    if a < 0 then (.error err_nonneg, tb)
    else if a > tb.capacity then (.error err_cap, tb)
    else
      let p := get_bucket tb key now
      let bucket := refill_bucket tb p.1 now
      let cooldown_wait := calc_cooldown_wait_time tb bucket now
      let token_wait := calc_token_wait_time tb bucket.tokens a
      (.ok (max cooldown_wait token_wait),
        { tb with buckets := mapSet p.2 key bucket })

/-- Public operation `consume(key, amount)`: validate, refill, compute the combined wait; when it
is 0, deduct `amount` and set `last_consume = now`. -/
def consume (tb : TokenBucket) (key : String) (amount : JSNum) (now : Rat) :
    Except String Rat × TokenBucket :=
  match amount with
  | .nan => (.error err_nan, tb)
  | .num a =>
    if a ≤ 0 then (.error err_pos, tb)
    else if a > tb.capacity then (.error err_cap, tb)
    else
      let p := get_bucket tb key now
      let bucket := refill_bucket tb p.1 now
      let cooldown_wait := calc_cooldown_wait_time tb bucket now
      let token_wait := calc_token_wait_time tb bucket.tokens a
      let wait_time := max cooldown_wait token_wait
      let bucket2 :=
        if wait_time = 0 then
          { bucket with tokens := bucket.tokens - a, last_consume := some now }
        else bucket
      (.ok wait_time, { tb with buckets := mapSet p.2 key bucket2 })

/-- Public operation `reset(key)`. -/
def reset (tb : TokenBucket) (key : String) : TokenBucket :=
  { tb with buckets := mapDelete tb.buckets key }

/-- Public operation `reset_all()`. -/
def reset_all (tb : TokenBucket) : TokenBucket :=
  { tb with buckets := [] }

/-- Public getter `size`. -/
def size (tb : TokenBucket) : Nat :=
  tb.buckets.length

/-- The loop body of `prune`: refill each bucket; keep it (refilled) when
`tokens < capacity` or the cooldown wait is positive, else delete it and
count the removal. -/
def prune_go (tb : TokenBucket) (now : Rat) :
    List (String × BucketState) → List (String × BucketState) × Nat
  | [] => ([], 0)
  | (k, b) :: rest =>
    let b2 := refill_bucket tb b now
    let cooldown_wait := calc_cooldown_wait_time tb b2 now
    let r := prune_go tb now rest
    if b2.tokens < tb.capacity ∨ cooldown_wait > 0 then ((k, b2) :: r.1, r.2)
    else (r.1, r.2 + 1)

/-- Public operation `prune()`: refuse (returning 0) when `initial < capacity`; otherwise sweep
all buckets, returning the updated limiter and the number removed. -/
def prune (tb : TokenBucket) (now : Rat) : TokenBucket × Nat :=
  if tb.initial < tb.capacity then (tb, 0)
  else
    let r := prune_go tb now tb.buckets
    ({ tb with buckets := r.1 }, r.2)

/-- The token wait exactly as the spec words it: 0 when `tokens ≥ amount`,
else `(amount - tokens) / refill_amount * interval`. -/
def spec_token_wait (refill_amount interval tokens amount : Rat) : Rat :=
  if tokens ≥ amount then 0 else (amount - tokens) / refill_amount * interval

/-- The cooldown wait exactly as the spec words it: 0 when `cooldown = 0` or
`now - last_consume ≥ cooldown` (the elapsed time being infinite when the key
was never consumed), else `cooldown - (now - last_consume)`. -/
def spec_cooldown_wait (cooldown now : Rat) (last_consume : Option Rat) : Rat :=
  if cooldown = 0 then 0
  else
    match last_consume with
    | none => 0
    | some t => if now - t ≥ cooldown then 0 else cooldown - (now - t)

/-- The bucket a `check`/`consume` call works with: the key's bucket after
lookup-or-create and refill at `now`. -/
def refilled (tb : TokenBucket) (key : String) (now : Rat) : BucketState :=
  TokenBucket.refill_bucket tb (TokenBucket.get_bucket tb key now).1 now

/-- The combined wait `check` and `consume` compute:
`max(cooldown_wait, token_wait)` over the refilled bucket. -/
def combined_wait (tb : TokenBucket) (key : String) (a now : Rat) : Rat :=
  max (TokenBucket.calc_cooldown_wait_time tb (refilled tb key now) now)
    (TokenBucket.calc_token_wait_time tb (refilled tb key now).tokens a)

/-- The limiter state after a successful `check`: the refilled bucket written
back at its key. -/
def post_check (tb : TokenBucket) (key : String) (now : Rat) : TokenBucket :=
  { tb with
      buckets := mapSet (TokenBucket.get_bucket tb key now).2 key (refilled tb key now) }

/-- The refilled bucket after a granted `consume`: `amount` deducted and the
cooldown armed. -/
def consumed_bucket (tb : TokenBucket) (key : String) (a now : Rat) : BucketState :=
  { refilled tb key now with
      tokens := (refilled tb key now).tokens - a
      last_consume := some now }

/-- The limiter state after a successful `consume` call (granted or blocked). -/
def post_consume (tb : TokenBucket) (key : String) (a now : Rat) : TokenBucket :=
  { tb with
      buckets := mapSet (TokenBucket.get_bucket tb key now).2 key
        (if combined_wait tb key a now = 0 then consumed_bucket tb key a now
         else refilled tb key now) }

/-- Sample key for concrete instantiations. -/
def kS : String := "user"

/-- Sample bucket: empty at time 0, consumed at time 0. -/
def bS : BucketState := { tokens := 0, last_refill := 0, last_consume := some 0 }

/-- Sample limiter: capacity 2, interval 100 ms, refill 1, cooldown 200 ms,
holding `bS` under `kS`. -/
def tbS : TokenBucket :=
  { capacity := 2, interval := 100, refill := 1, initial := 2, cooldown := 200,
    buckets := [(kS, bS)] }

/-- Sample limiter: capacity 5, interval 1000 ms, refill 1, no cooldown,
no buckets yet. -/
def tbA : TokenBucket :=
  { capacity := 5, interval := 1000, refill := 1, initial := 5, cooldown := 0,
    buckets := [] }

/-- Sample limiter with `initial < capacity` (prune must refuse). -/
def tbI : TokenBucket :=
  { capacity := 2, interval := 100, refill := 1, initial := 1, cooldown := 0,
    buckets := [(kS, bS)] }

theorem mapGet_mapSet_self (m : List (String × BucketState)) (key : String)
    (v : BucketState) : mapGet (mapSet m key v) key = some v := by
  induction m with
  | nil => simp [mapGet, mapSet]
  | cons kb rest ih =>
    obtain ⟨k, b⟩ := kb
    by_cases h : k = key
    · simp [mapGet, mapSet, h]
    · simp [mapGet, mapSet, h, ih]

theorem get_bucket_of_mem (tb : TokenBucket) (key : String) (now : Rat)
    (b : BucketState) (h : mapGet tb.buckets key = some b) :
    TokenBucket.get_bucket tb key now = (b, tb.buckets) := by
  simp [TokenBucket.get_bucket, h]

theorem refill_tokens_le_capacity (tb : TokenBucket) (b : BucketState) (now : Rat) :
    (TokenBucket.refill_bucket tb b now).tokens ≤ tb.capacity :=
  min_le_left _ _

theorem refill_last_consume (tb : TokenBucket) (b : BucketState) (now : Rat) :
    (TokenBucket.refill_bucket tb b now).last_consume = b.last_consume :=
  rfl

/-- Refilling a bucket whose `last_refill` is already `now` and whose tokens are
within capacity is the identity. -/
theorem refill_fixed (tb : TokenBucket) (b : BucketState) (now : Rat)
    (h1 : b.last_refill = now) (h2 : b.tokens ≤ tb.capacity) :
    TokenBucket.refill_bucket tb b now = b := by
  unfold TokenBucket.refill_bucket
  rw [h1]
  simp only [sub_self, zero_div, zero_mul, add_zero, min_eq_right h2]
  rw [← h1]

/-- Refill at a fixed instant is idempotent. -/
theorem refill_idem (tb : TokenBucket) (b : BucketState) (now : Rat) :
    TokenBucket.refill_bucket tb (TokenBucket.refill_bucket tb b now) now =
      TokenBucket.refill_bucket tb b now :=
  refill_fixed tb _ now rfl (refill_tokens_le_capacity tb b now)

/-- The cooldown wait is never negative. -/
theorem cooldown_wait_nonneg (tb : TokenBucket) (b : BucketState) (now : Rat) :
    0 ≤ TokenBucket.calc_cooldown_wait_time tb b now := by
  unfold TokenBucket.calc_cooldown_wait_time
  split
  · exact le_refl 0
  · cases b.last_consume with
    | none => exact le_refl 0
    | some t =>
      simp only
      split
      · exact le_refl 0
      · rename_i hlt
        rw [not_le] at hlt
        linarith

theorem calc_token_eq_spec (tb : TokenBucket) (tokens amount : Rat) :
    TokenBucket.calc_token_wait_time tb tokens amount =
      spec_token_wait tb.refill tb.interval tokens amount :=
  rfl

theorem calc_cooldown_eq_spec (tb : TokenBucket) (b : BucketState) (now : Rat) :
    TokenBucket.calc_cooldown_wait_time tb b now =
      spec_cooldown_wait tb.cooldown now b.last_consume := by
  unfold TokenBucket.calc_cooldown_wait_time spec_cooldown_wait
  cases b.last_consume <;> rfl

/-- Canonical form of a successful `check`. -/
theorem check_ok (tb : TokenBucket) (key : String) (a now : Rat)
    (h0 : ¬ a < 0) (h1 : ¬ a > tb.capacity) :
    TokenBucket.check tb key (.num a) now =
      (.ok (combined_wait tb key a now), post_check tb key now) := by
  simp only [TokenBucket.check]
  rw [if_neg h0, if_neg h1]
  rfl

/-- Canonical form of a successful `consume`. -/
theorem consume_ok (tb : TokenBucket) (key : String) (a now : Rat)
    (h0 : ¬ a ≤ 0) (h1 : ¬ a > tb.capacity) :
    TokenBucket.consume tb key (.num a) now =
      (.ok (combined_wait tb key a now), post_consume tb key a now) := by
  simp only [TokenBucket.consume]
  rw [if_neg h0, if_neg h1]
  rfl

/-- C9: refill is idempotent within an instant: applying the refill step to a
bucket twice at the same timestamp yields the same bucket state (tokens and
last_refill) as applying it once. -/
theorem claim_C9 (tb : TokenBucket) (b : BucketState) (now : Rat) :
    refill_bucket tb (refill_bucket tb b now) now = refill_bucket tb b now :=
  refill_idem tb b now

/-- C8: a bucket freshly created by the current call for an unseen key has
cooldown wait 0 for any cooldown setting (before and after its first refill),
because `last_consume` starts at "never". -/
theorem claim_C8 (tb : TokenBucket) (key : String) (now : Rat)
    (h : mapGet tb.buckets key = none) :
    calc_cooldown_wait_time tb (get_bucket tb key now).1 now = 0 ∧
    calc_cooldown_wait_time tb (refilled tb key now) now = 0 := by
  have hb : (get_bucket tb key now).1 =
      { tokens := tb.initial, last_refill := now, last_consume := none } := by
    simp [get_bucket, h]
  constructor
  · rw [hb]
    simp [calc_cooldown_wait_time]
  · unfold refilled
    rw [hb]
    simp [calc_cooldown_wait_time, refill_bucket]

/-- Witness for C8 at a concrete unseen key. -/
theorem claim_C8_witness :
    mapGet (reset_all tbS).buckets kS = none ∧
    (calc_cooldown_wait_time (reset_all tbS) (get_bucket (reset_all tbS) kS 5).1 5 = 0 ∧
      calc_cooldown_wait_time (reset_all tbS) (refilled (reset_all tbS) kS 5) 5 = 0) :=
  ⟨rfl, claim_C8 (reset_all tbS) kS 5 rfl⟩

/-- C3: immediately after a refill (with a non-negative starting token count, a
monotonic clock, and the constructor constraints capacity ≥ 0, interval > 0,
refill > 0), 0 ≤ tokens ≤ capacity holds: the refill adds
elapsed / interval * refill tokens and clamps at capacity. -/
theorem claim_C3 (tb : TokenBucket) (b : BucketState) (now : Rat)
    (htok : 0 ≤ b.tokens) (hmono : b.last_refill ≤ now)
    (hcap : 0 ≤ tb.capacity) (hint : 0 < tb.interval) (href : 0 < tb.refill) :
    0 ≤ (refill_bucket tb b now).tokens ∧
      (refill_bucket tb b now).tokens ≤ tb.capacity := by
  refine ⟨?_, refill_tokens_le_capacity tb b now⟩
  unfold refill_bucket
  simp only
  have hadd : 0 ≤ (now - b.last_refill) / tb.interval * tb.refill :=
    mul_nonneg (div_nonneg (by linarith) (le_of_lt hint)) (le_of_lt href)
  exact le_min hcap (by linarith)

/-- Witness for C3 on the sample bucket, 150 ms after its last refill. -/
theorem claim_C3_witness :
    (0 ≤ bS.tokens ∧ bS.last_refill ≤ 150 ∧ 0 ≤ tbS.capacity ∧
      0 < tbS.interval ∧ 0 < tbS.refill) ∧
    (0 ≤ (refill_bucket tbS bS 150).tokens ∧
      (refill_bucket tbS bS 150).tokens ≤ tbS.capacity) :=
  ⟨⟨by norm_num [bS], by norm_num [bS], by norm_num [tbS], by norm_num [tbS],
      by norm_num [tbS]⟩,
    claim_C3 tbS bS 150 (by norm_num [bS]) (by norm_num [bS]) (by norm_num [tbS])
      (by norm_num [tbS]) (by norm_num [tbS])⟩

/-- C1: for every limiter state and valid amount, check returns exactly
max(token_wait, cooldown_wait) over the refilled bucket, with the two waits
given by the spec formulas in exact arithmetic, and consume computes the same
wait before deciding. -/
theorem claim_C1 (tb : TokenBucket) (key : String) (a now : Rat)
    (h0 : 0 ≤ a) (h1 : a ≤ tb.capacity) :
    (check tb key (.num a) now).1 =
      .ok (max (spec_token_wait tb.refill tb.interval (refilled tb key now).tokens a)
        (spec_cooldown_wait tb.cooldown now (refilled tb key now).last_consume)) ∧
    (0 < a → (consume tb key (.num a) now).1 =
      .ok (max (spec_token_wait tb.refill tb.interval (refilled tb key now).tokens a)
        (spec_cooldown_wait tb.cooldown now (refilled tb key now).last_consume))) := by
  have hlt : ¬ a < 0 := not_lt.mpr h0
  have hgt : ¬ a > tb.capacity := not_lt.mpr h1
  have hw : combined_wait tb key a now =
      max (spec_token_wait tb.refill tb.interval (refilled tb key now).tokens a)
        (spec_cooldown_wait tb.cooldown now (refilled tb key now).last_consume) := by
    unfold combined_wait
    rw [calc_token_eq_spec, calc_cooldown_eq_spec, max_comm]
  constructor
  · rw [check_ok tb key a now hlt hgt]
    exact congrArg Except.ok hw
  · intro ha
    rw [consume_ok tb key a now (not_le.mpr ha) hgt]
    exact congrArg Except.ok hw

/-- Witness for C1 on the sample limiter, 150 ms in. -/
theorem claim_C1_witness :
    ((0:Rat) ≤ 1 ∧ (1:Rat) ≤ tbS.capacity) ∧
    ((check tbS kS (.num 1) 150).1 =
      .ok (max (spec_token_wait tbS.refill tbS.interval (refilled tbS kS 150).tokens 1)
        (spec_cooldown_wait tbS.cooldown 150 (refilled tbS kS 150).last_consume)) ∧
    (0 < (1:Rat) → (consume tbS kS (.num 1) 150).1 =
      .ok (max (spec_token_wait tbS.refill tbS.interval (refilled tbS kS 150).tokens 1)
        (spec_cooldown_wait tbS.cooldown 150 (refilled tbS kS 150).last_consume)))) :=
  ⟨⟨by norm_num, by norm_num [tbS]⟩,
    claim_C1 tbS kS 1 150 (by norm_num) (by norm_num [tbS])⟩

/-- C6: check raises exactly when amount is NaN, negative, or above capacity;
consume raises exactly when amount is NaN, non-positive, or above capacity;
every failure happens before any mutation, so the limiter (including its
bucket mapping) is unchanged and no bucket is created for an unseen key. -/
theorem claim_C6 (tb : TokenBucket) (key : String) (amount : JSNum) (now : Rat) :
    ((∃ e, (check tb key amount now).1 = .error e) ↔
      amount = JSNum.nan ∨ ∃ a, amount = JSNum.num a ∧ (a < 0 ∨ a > tb.capacity)) ∧
    ((∃ e, (consume tb key amount now).1 = .error e) ↔
      amount = JSNum.nan ∨ ∃ a, amount = JSNum.num a ∧ (a ≤ 0 ∨ a > tb.capacity)) ∧
    ((∃ e, (check tb key amount now).1 = .error e) → (check tb key amount now).2 = tb) ∧
    ((∃ e, (consume tb key amount now).1 = .error e) → (consume tb key amount now).2 = tb) := by
  cases amount with
  | nan => simp [check, consume]
  | num a =>
    by_cases h0 : a < 0
    · simp [check, consume, h0, le_of_lt h0]
    · by_cases h1 : a > tb.capacity
      · by_cases h2 : a ≤ 0
        · simp [check, consume, h0, h1, h2]
        · simp [check, consume, h0, h1, h2]
      · by_cases h2 : a ≤ 0
        · simp [check, consume, h0, h1, h2]
        · simp [check, consume, h0, h1, h2]

/-- Witness for C6: a negative check and a zero-amount consume both fail and
leave the limiter untouched. -/
theorem claim_C6_witness :
    (∃ e, (check tbS kS (.num (-1)) 0).1 = .error e) ∧
    (check tbS kS (.num (-1)) 0).2 = tbS ∧
    (∃ e, (consume tbS kS (.num 0) 0).1 = .error e) ∧
    (consume tbS kS (.num 0) 0).2 = tbS := by
  have h1 := claim_C6 tbS kS (.num (-1)) 0
  have h2 := claim_C6 tbS kS (.num 0) 0
  have e1 : ∃ e, (check tbS kS (.num (-1)) 0).1 = .error e :=
    h1.1.mpr (Or.inr ⟨-1, rfl, Or.inl (by norm_num)⟩)
  have e2 : ∃ e, (consume tbS kS (.num 0) 0).1 = .error e :=
    h2.2.1.mpr (Or.inr ⟨0, rfl, Or.inl (by norm_num)⟩)
  exact ⟨e1, h1.2.2.1 e1, e2, h2.2.2.2 e2⟩

/-- A refilled-then-kept bucket in `prune` is removed exactly when its tokens
sit at capacity and its cooldown wait is zero: `prune_go` equals a filter. -/
theorem prune_go_spec (tb : TokenBucket) (now : Rat)
    (l : List (String × BucketState)) :
    (prune_go tb now l).1 =
      l.filterMap (fun kb =>
        if (refill_bucket tb kb.2 now).tokens = tb.capacity ∧
            calc_cooldown_wait_time tb (refill_bucket tb kb.2 now) now = 0
        then none else some (kb.1, refill_bucket tb kb.2 now)) ∧
    (prune_go tb now l).2 =
      (l.filter (fun kb =>
        decide ((refill_bucket tb kb.2 now).tokens = tb.capacity ∧
          calc_cooldown_wait_time tb (refill_bucket tb kb.2 now) now = 0))).length := by
  induction l with
  | nil => simp [prune_go]
  | cons kb rest ih =>
    obtain ⟨k, b⟩ := kb
    have htle : (refill_bucket tb b now).tokens ≤ tb.capacity :=
      refill_tokens_le_capacity tb b now
    have hcw : 0 ≤ calc_cooldown_wait_time tb (refill_bucket tb b now) now :=
      cooldown_wait_nonneg tb (refill_bucket tb b now) now
    by_cases hP : (refill_bucket tb b now).tokens = tb.capacity ∧
        calc_cooldown_wait_time tb (refill_bucket tb b now) now = 0
    · have hcond : ¬ ((refill_bucket tb b now).tokens < tb.capacity ∨
          calc_cooldown_wait_time tb (refill_bucket tb b now) now > 0) := by
        push_neg
        exact ⟨le_of_eq hP.1.symm, le_of_eq hP.2⟩
      simp [prune_go, hcond, hP, ih.1, ih.2]
    · have hcond : (refill_bucket tb b now).tokens < tb.capacity ∨
          calc_cooldown_wait_time tb (refill_bucket tb b now) now > 0 := by
        rcases Decidable.not_and_iff_or_not.mp hP with h | h
        · exact Or.inl (lt_of_le_of_ne htle h)
        · exact Or.inr (lt_of_le_of_ne hcw (Ne.symm h))
      simp [prune_go, hcond, hP, ih.1, ih.2]

/-- C5: prune is total; with `initial < capacity` it removes nothing and
returns 0; with `initial ≥ capacity` it refills every bucket and removes
exactly the buckets whose tokens equal capacity and whose cooldown wait is 0,
returning the count removed. -/
theorem claim_C5 (tb : TokenBucket) (now : Rat) :
    (tb.initial < tb.capacity → prune tb now = (tb, 0)) ∧
    (tb.capacity ≤ tb.initial →
      (prune tb now).1.buckets =
        tb.buckets.filterMap (fun kb =>
          if (refill_bucket tb kb.2 now).tokens = tb.capacity ∧
              calc_cooldown_wait_time tb (refill_bucket tb kb.2 now) now = 0
          then none else some (kb.1, refill_bucket tb kb.2 now)) ∧
      (prune tb now).2 =
        (tb.buckets.filter (fun kb =>
          decide ((refill_bucket tb kb.2 now).tokens = tb.capacity ∧
            calc_cooldown_wait_time tb (refill_bucket tb kb.2 now) now = 0))).length) := by
  constructor
  · intro h
    unfold prune
    rw [if_pos h]
  · intro h
    have hno : ¬ tb.initial < tb.capacity := not_lt.mpr h
    unfold prune
    rw [if_neg hno]
    exact ⟨(prune_go_spec tb now tb.buckets).1, (prune_go_spec tb now tb.buckets).2⟩

/-- Witness for C5: the guarded limiter refuses to prune; the sample limiter
prunes per the filter characterization. -/
theorem claim_C5_witness :
    (tbI.initial < tbI.capacity ∧ prune tbI 0 = (tbI, 0)) ∧
    (tbS.capacity ≤ tbS.initial ∧
      ((prune tbS 150).1.buckets =
        tbS.buckets.filterMap (fun kb =>
          if (refill_bucket tbS kb.2 150).tokens = tbS.capacity ∧
              calc_cooldown_wait_time tbS (refill_bucket tbS kb.2 150) 150 = 0
          then none else some (kb.1, refill_bucket tbS kb.2 150)) ∧
      (prune tbS 150).2 =
        (tbS.buckets.filter (fun kb =>
          decide ((refill_bucket tbS kb.2 150).tokens = tbS.capacity ∧
            calc_cooldown_wait_time tbS (refill_bucket tbS kb.2 150) 150 = 0))).length)) :=
  ⟨⟨by norm_num [tbI], (claim_C5 tbI 0).1 (by norm_num [tbI])⟩,
    ⟨by norm_num [tbS], (claim_C5 tbS 150).2 (by norm_num [tbS])⟩⟩

/-- The state after a check holds the refilled bucket at the key. -/
theorem post_check_mapGet (tb : TokenBucket) (key : String) (now : Rat) :
    mapGet (post_check tb key now).buckets key = some (refilled tb key now) := by
  unfold post_check
  exact mapGet_mapSet_self _ _ _

/-- Re-reading and refilling the key right after a check changes nothing. -/
theorem refilled_post_check (tb : TokenBucket) (key : String) (now : Rat) :
    refilled (post_check tb key now) key now = refilled tb key now := by
  unfold refilled
  rw [get_bucket_of_mem _ _ _ _ (post_check_mapGet tb key now)]
  exact refill_fixed _ _ _ rfl (refill_tokens_le_capacity tb _ now)

/-- The combined wait is unchanged by an immediately preceding check. -/
theorem combined_wait_post_check (tb : TokenBucket) (key : String) (a now : Rat) :
    combined_wait (post_check tb key now) key a now = combined_wait tb key a now := by
  unfold combined_wait
  rw [refilled_post_check]
  rfl

/-- C7: check never mutates the bucket beyond the lazy refill shared by every
read: its state effect is independent of the amount, the key's stored bucket
becomes exactly the refilled old bucket (same last_consume, and a further
refill at the same instant returns the same token count), and amount = 0 is
permitted, reporting only the cooldown wait. -/
theorem claim_C7 (tb : TokenBucket) (key : String) (a now : Rat)
    (h0 : 0 ≤ a) (h1 : a ≤ tb.capacity) :
    (check tb key (.num a) now).2 = (check tb key (.num 0) now).2 ∧
    (∀ b, mapGet tb.buckets key = some b →
      mapGet (check tb key (.num a) now).2.buckets key = some (refill_bucket tb b now) ∧
      (refill_bucket tb b now).last_consume = b.last_consume ∧
      (refill_bucket tb (refill_bucket tb b now) now).tokens =
        (refill_bucket tb b now).tokens) ∧
    (0 ≤ (refilled tb key now).tokens →
      (check tb key (.num 0) now).1 =
        .ok (calc_cooldown_wait_time tb (refilled tb key now) now)) := by
  have hlt : ¬ a < 0 := not_lt.mpr h0
  have hgt : ¬ a > tb.capacity := not_lt.mpr h1
  have hlt0 : ¬ (0:Rat) < 0 := lt_irrefl 0
  have hgt0 : ¬ (0:Rat) > tb.capacity := not_lt.mpr (le_trans h0 h1)
  refine ⟨?_, ?_, ?_⟩
  · rw [check_ok tb key a now hlt hgt, check_ok tb key 0 now hlt0 hgt0]
  · intro b hb
    have hgb : get_bucket tb key now = (b, tb.buckets) := get_bucket_of_mem tb key now b hb
    have hrefb : refilled tb key now = refill_bucket tb b now := by
      unfold refilled
      rw [hgb]
    refine ⟨?_, rfl, by rw [refill_idem]⟩
    rw [check_ok tb key a now hlt hgt]
    show mapGet (post_check tb key now).buckets key = some (refill_bucket tb b now)
    rw [post_check_mapGet, hrefb]
  · intro htok
    rw [check_ok tb key 0 now hlt0 hgt0]
    have hcw : combined_wait tb key 0 now =
        calc_cooldown_wait_time tb (refilled tb key now) now := by
      unfold combined_wait
      have htw : calc_token_wait_time tb (refilled tb key now).tokens 0 = 0 := by
        unfold calc_token_wait_time
        rw [if_pos htok]
      rw [htw]
      exact max_eq_left (cooldown_wait_nonneg tb _ now)
    exact congrArg Except.ok hcw

/-- Witness for C7 on the sample limiter, 150 ms in. -/
theorem claim_C7_witness :
    ((0:Rat) ≤ 1 ∧ (1:Rat) ≤ tbS.capacity ∧ mapGet tbS.buckets kS = some bS ∧
      0 ≤ (refilled tbS kS 150).tokens) ∧
    ((check tbS kS (.num 1) 150).2 = (check tbS kS (.num 0) 150).2 ∧
      mapGet (check tbS kS (.num 1) 150).2.buckets kS = some (refill_bucket tbS bS 150) ∧
      (refill_bucket tbS bS 150).last_consume = bS.last_consume ∧
      (refill_bucket tbS (refill_bucket tbS bS 150) 150).tokens =
        (refill_bucket tbS bS 150).tokens ∧
      (check tbS kS (.num 0) 150).1 =
        .ok (calc_cooldown_wait_time tbS (refilled tbS kS 150) 150)) := by
  have hmem : mapGet tbS.buckets kS = some bS := by simp [tbS, mapGet]
  have htok : 0 ≤ (refilled tbS kS 150).tokens := by
    norm_num [refilled, get_bucket, tbS, bS, kS, mapGet, refill_bucket]
  have h := claim_C7 tbS kS 1 150 (by norm_num) (by norm_num [tbS])
  obtain ⟨ha, hbb, hcc⟩ := h
  obtain ⟨p1, p2, p3⟩ := hbb bS hmem
  exact ⟨⟨by norm_num, by norm_num [tbS], hmem, htok⟩, ha, p1, p2, p3, hcc htok⟩

/-- C2: a blocked consume has zero side effects: it leaves the limiter in
exactly the state a read-only check leaves it in, the stored bucket is only
refill-normalized (same last_consume; a further refill at the same instant
yields the same token count), and a following check returns the same wait. -/
theorem claim_C2 (tb : TokenBucket) (key : String) (a now w : Rat)
    (h : (consume tb key (.num a) now).1 = .ok w) (hw : 0 < w) :
    (consume tb key (.num a) now).2 = (check tb key (.num a) now).2 ∧
    (∀ b, mapGet tb.buckets key = some b →
      mapGet (consume tb key (.num a) now).2.buckets key = some (refill_bucket tb b now) ∧
      (refill_bucket tb b now).last_consume = b.last_consume ∧
      (refill_bucket tb (refill_bucket tb b now) now).tokens =
        (refill_bucket tb b now).tokens) ∧
    (check (consume tb key (.num a) now).2 key (.num a) now).1 = .ok w := by
  by_cases hle : a ≤ 0
  · exfalso
    simp [consume, hle] at h
  by_cases hgt : a > tb.capacity
  · exfalso
    simp [consume, hle, hgt] at h
  have hlt : ¬ a < 0 := fun hx => hle (le_of_lt hx)
  have hco := consume_ok tb key a now hle hgt
  rw [hco] at h
  have hwk : combined_wait tb key a now = w := by simpa using h
  have hne : ¬ combined_wait tb key a now = 0 := by
    rw [hwk]
    exact ne_of_gt hw
  have hpost : post_consume tb key a now = post_check tb key now := by
    unfold post_consume post_check
    rw [if_neg hne]
  refine ⟨?_, ?_, ?_⟩
  · rw [hco, check_ok tb key a now hlt hgt]
    exact hpost
  · intro b hb
    have hgb : get_bucket tb key now = (b, tb.buckets) := get_bucket_of_mem tb key now b hb
    have hrefb : refilled tb key now = refill_bucket tb b now := by
      unfold refilled
      rw [hgb]
    refine ⟨?_, rfl, by rw [refill_idem]⟩
    rw [hco]
    show mapGet (post_consume tb key a now).buckets key = some (refill_bucket tb b now)
    rw [hpost, post_check_mapGet, hrefb]
  · rw [hco]
    show (check (post_consume tb key a now) key (.num a) now).1 = .ok w
    rw [hpost, check_ok (post_check tb key now) key a now hlt hgt]
    show Except.ok (combined_wait (post_check tb key now) key a now) = Except.ok w
    rw [combined_wait_post_check, hwk]

/-- Witness for C2: on the sample limiter a consume 150 ms in is blocked for
50 ms by the cooldown and has no effect beyond the shared refill. -/
theorem claim_C2_witness :
    ((consume tbS kS (.num 1) 150).1 = .ok 50 ∧ (0:Rat) < 50) ∧
    ((consume tbS kS (.num 1) 150).2 = (check tbS kS (.num 1) 150).2 ∧
      (mapGet (consume tbS kS (.num 1) 150).2.buckets kS = some (refill_bucket tbS bS 150) ∧
        (refill_bucket tbS bS 150).last_consume = bS.last_consume ∧
        (refill_bucket tbS (refill_bucket tbS bS 150) 150).tokens =
          (refill_bucket tbS bS 150).tokens) ∧
      (check (consume tbS kS (.num 1) 150).2 kS (.num 1) 150).1 = .ok 50) := by
  have hwS : combined_wait tbS kS 1 150 = 50 := by
    norm_num [combined_wait, refilled, get_bucket, tbS, bS, kS, mapGet, refill_bucket,
      calc_cooldown_wait_time, calc_token_wait_time]
  have hc : (consume tbS kS (.num 1) 150).1 = .ok 50 := by
    rw [consume_ok tbS kS 1 150 (by norm_num) (by norm_num [tbS])]
    exact congrArg Except.ok hwS
  have hmem : mapGet tbS.buckets kS = some bS := by simp [tbS, mapGet]
  have h := claim_C2 tbS kS 1 150 50 hc (by norm_num)
  exact ⟨⟨hc, by norm_num⟩, h.1, h.2.1 bS hmem, h.2.2⟩

/-- C4: check immediately followed by consume (no time passing) yields the same
wait from both calls, and when that wait is 0 the consume succeeds: it deducts
the amount from the refilled tokens and arms the cooldown. -/
theorem claim_C4 (tb : TokenBucket) (key : String) (a now : Rat)
    (h0 : 0 < a) (h1 : a ≤ tb.capacity) :
    (consume (check tb key (.num a) now).2 key (.num a) now).1 =
      (check tb key (.num a) now).1 ∧
    ((check tb key (.num a) now).1 = .ok 0 →
      mapGet (consume (check tb key (.num a) now).2 key (.num a) now).2.buckets key =
        some (consumed_bucket tb key a now)) := by
  have hlt : ¬ a < 0 := not_lt.mpr (le_of_lt h0)
  have hle : ¬ a ≤ 0 := not_le.mpr h0
  have hgt : ¬ a > tb.capacity := not_lt.mpr h1
  rw [check_ok tb key a now hlt hgt]
  have hco := consume_ok (post_check tb key now) key a now hle hgt
  constructor
  · show (consume (post_check tb key now) key (.num a) now).1 =
      Except.ok (combined_wait tb key a now)
    rw [hco]
    exact congrArg Except.ok (combined_wait_post_check tb key a now)
  · intro hz
    have hw0 : combined_wait tb key a now = 0 := by simpa using hz
    show mapGet (consume (post_check tb key now) key (.num a) now).2.buckets key =
      some (consumed_bucket tb key a now)
    rw [hco]
    show mapGet (post_consume (post_check tb key now) key a now).buckets key =
      some (consumed_bucket tb key a now)
    have hcb : consumed_bucket (post_check tb key now) key a now =
        consumed_bucket tb key a now := by
      unfold consumed_bucket
      rw [refilled_post_check]
    unfold post_consume
    rw [combined_wait_post_check tb key a now, if_pos hw0, hcb, mapGet_mapSet_self]

/-- Witness for C4 on a fresh key of the no-cooldown sample limiter. -/
theorem claim_C4_witness :
    ((0:Rat) < 1 ∧ (1:Rat) ≤ tbA.capacity ∧ (check tbA kS (.num 1) 0).1 = .ok 0) ∧
    ((consume (check tbA kS (.num 1) 0).2 kS (.num 1) 0).1 = (check tbA kS (.num 1) 0).1 ∧
      mapGet (consume (check tbA kS (.num 1) 0).2 kS (.num 1) 0).2.buckets kS =
        some (consumed_bucket tbA kS 1 0)) := by
  have hw0 : combined_wait tbA kS 1 0 = 0 := by
    norm_num [combined_wait, refilled, get_bucket, tbA, mapGet, refill_bucket,
      calc_cooldown_wait_time, calc_token_wait_time]
  have hchk : (check tbA kS (.num 1) 0).1 = .ok 0 := by
    rw [check_ok tbA kS 1 0 (by norm_num) (by norm_num [tbA])]
    exact congrArg Except.ok hw0
  have h := claim_C4 tbA kS 1 0 (by norm_num) (by norm_num [tbA])
  exact ⟨⟨by norm_num, by norm_num [tbA], hchk⟩, h.1, h.2 hchk⟩

/-- C10: tokens never go negative through consumption: under the constructor
constraints interval > 0 and refill > 0, whenever a consume is granted
(wait 0), the stored bucket afterwards still has tokens ≥ 0, because a zero
combined wait requires the refilled tokens to cover the amount. -/
theorem claim_C10 (tb : TokenBucket) (key : String) (a now : Rat) (b2 : BucketState)
    (hint : 0 < tb.interval) (href : 0 < tb.refill)
    (_htok : 0 ≤ (get_bucket tb key now).1.tokens)
    (h : (consume tb key (.num a) now).1 = .ok 0)
    (hb : mapGet (consume tb key (.num a) now).2.buckets key = some b2) :
    0 ≤ b2.tokens := by
  by_cases hle : a ≤ 0
  · exfalso
    simp [consume, hle] at h
  by_cases hgt : a > tb.capacity
  · exfalso
    simp [consume, hle, hgt] at h
  have hco := consume_ok tb key a now hle hgt
  rw [hco] at h hb
  have hw0 : combined_wait tb key a now = 0 := by simpa using h
  have hb2 : b2 = consumed_bucket tb key a now := by
    have hx : mapGet (post_consume tb key a now).buckets key = some b2 := hb
    unfold post_consume at hx
    rw [if_pos hw0, mapGet_mapSet_self] at hx
    exact (Option.some_inj.mp hx).symm
  rw [hb2]
  show 0 ≤ (refilled tb key now).tokens - a
  have htw : calc_token_wait_time tb (refilled tb key now).tokens a ≤ 0 := by
    have hle2 : calc_token_wait_time tb (refilled tb key now).tokens a ≤
        combined_wait tb key a now := le_max_right _ _
    rw [hw0] at hle2
    exact hle2
  by_cases hge : (refilled tb key now).tokens ≥ a
  · linarith
  · exfalso
    unfold calc_token_wait_time at htw
    rw [if_neg hge] at htw
    have hpos : 0 < (a - (refilled tb key now).tokens) / tb.refill * tb.interval :=
      mul_pos (div_pos (by linarith [not_le.mp hge]) href) hint
    linarith

/-- Witness for C10 on a fresh key of the no-cooldown sample limiter. -/
theorem claim_C10_witness :
    (0 < tbA.interval ∧ 0 < tbA.refill ∧ 0 ≤ (get_bucket tbA kS 0).1.tokens ∧
      (consume tbA kS (.num 1) 0).1 = .ok 0 ∧
      mapGet (consume tbA kS (.num 1) 0).2.buckets kS = some (consumed_bucket tbA kS 1 0)) ∧
    0 ≤ (consumed_bucket tbA kS 1 0).tokens := by
  have hw0 : combined_wait tbA kS 1 0 = 0 := by
    norm_num [combined_wait, refilled, get_bucket, tbA, mapGet, refill_bucket,
      calc_cooldown_wait_time, calc_token_wait_time]
  have hcons : (consume tbA kS (.num 1) 0).1 = .ok 0 := by
    rw [consume_ok tbA kS 1 0 (by norm_num) (by norm_num [tbA])]
    exact congrArg Except.ok hw0
  have hmap : mapGet (consume tbA kS (.num 1) 0).2.buckets kS =
      some (consumed_bucket tbA kS 1 0) := by
    rw [consume_ok tbA kS 1 0 (by norm_num) (by norm_num [tbA])]
    show mapGet (post_consume tbA kS 1 0).buckets kS = some (consumed_bucket tbA kS 1 0)
    unfold post_consume
    rw [if_pos hw0, mapGet_mapSet_self]
  have htok0 : 0 ≤ (get_bucket tbA kS 0).1.tokens := by
    norm_num [get_bucket, tbA, mapGet]
  exact ⟨⟨by norm_num [tbA], by norm_num [tbA], htok0, hcons, hmap⟩,
    claim_C10 tbA kS 1 0 (consumed_bucket tbA kS 1 0) (by norm_num [tbA])
      (by norm_num [tbA]) htok0 hcons hmap⟩

end TokenBucket
